import Mathlib

/-!
Shallow embedding of the nonobvious pub/sub micro-kernel
(src/nonobvious/nodes.py and src/nonobvious/schedulers.py) and proofs of
the specification claims about it.

Modelling conventions:
* Python generators become explicit state machines (the node protocol).
* The goless channels are identified by natural-number channel ids; a
  channel's buffered contents is a list of messages indexed by channel id.
* Python `defaultdict` registries become association lists together with
  the `getOrInsertEmpty` / `getOrMakeChan` operations that reproduce the
  defaultdict side effect of inserting a default value on lookup.
* Blocking calls (`go`, `chan.recv`, `chan.send`) of the `start`/`stop`
  methods are recorded as event traces.
-/

namespace Nonobvious

/-! ### nodes.py -/

/-- A message on the bus or on a per-node channel.  `STOP` models the
distinguished sentinel class `STOP` of nodes.py; `val` models an ordinary
payload (the examples in the repository use integers). -/
inductive Msg where
  | STOP : Msg
  | val : Int → Msg
deriving DecidableEq, Repr

/-- Python `Topics = namedtuple('Topics', ('receiving', 'sending'))`. -/
structure Topics where
  receiving : String
  sending : String
deriving DecidableEq, Repr

/-- The three suspension states of the generator produced by `node`:
before the first `next()` (suspended at the top of the body), suspended at
a `yield` inside the loop, and exhausted. -/
inductive NodeState where
  | awaitingTopics
  | running
  | stopped
deriving DecidableEq, Repr

/-- Observable outcome of one activation of the generator:
it yields its topics, yields a computed message, raises StopIteration by
returning (normal termination on `STOP`), or is activated illegally
(activation after exhaustion, which Python reports as an error). -/
inductive ActResult where
  | yieldTopics (t : Topics)
  | yieldMsg (m : Msg)
  | terminated
  | error
deriving DecidableEq, Repr

/-- The data closed over by `node(topics, func)`: the declared topics pair
and the step function. -/
structure PNode where
  topics : Topics
  func : Msg → Msg

/-- First activation (`.next()`): the generator body runs
`message = yield topics`, i.e. it yields the `Topics` value and suspends
inside the loop head.  The step function is not touched. -/
def node_first (n : PNode) : ActResult × NodeState :=
  (ActResult.yieldTopics n.topics, NodeState.running)

/-- Subsequent activation (`.send(message)`): inside the loop the
generator checks `if message is STOP: break` (so it returns, raising
StopIteration) and otherwise runs `message = yield func(message)`.
Activating the exhausted generator, or sending a value before the first
activation, is an error. -/
def node_send (n : PNode) : NodeState → Msg → ActResult × NodeState
  | NodeState.awaitingTopics, _ => (ActResult.error, NodeState.awaitingTopics)
  | NodeState.running, m =>
      if m = Msg.STOP then (ActResult.terminated, NodeState.stopped)
      else (ActResult.yieldMsg (n.func m), NodeState.running)
  | NodeState.stopped, _ => (ActResult.error, NodeState.stopped)

/-- The step function of the concrete scenario in the spec:
`step = x -> x + 2` on integer payloads. -/
def add2 : Msg → Msg
  | Msg.val n => Msg.val (n + 2)
  | Msg.STOP => Msg.STOP

/-! ### schedulers.py: the topic registries

`_topic_node_id_receivers` and `_topic_node_id_senders` are
`defaultdict(lambda: defaultdict(self._make_channel))`: topic name to
(node id to channel).  We model each as an association list; channel
identity is a natural number handed out by the scheduler's allocation
counter (`_make_channel` returns a fresh `goless.chan(-1)`). -/

abbrev NodeId := String
abbrev ChanId := Nat
abbrev Inner := List (NodeId × ChanId)
abbrev Reg := List (String × Inner)

/-- Association-list lookup (Python `dict.get`). -/
def lookupA {β : Type} : List (String × β) → String → Option β
  | [], _ => none
  | (k, v) :: rest, k2 => if k = k2 then some v else lookupA rest k2

/-- Association-list update (Python `dict.__setitem__`). -/
def setA {β : Type} : List (String × β) → String → β → List (String × β)
  | [], k, v => [(k, v)]
  | (k1, v1) :: rest, k, v =>
      if k1 = k then (k, v) :: rest else (k1, v1) :: setA rest k v

/-- Association-list removal with a default (Python `dict.pop(key, None)`):
removes the entry when present, otherwise leaves the map alone; never an
error either way. -/
def popA {β : Type} : List (String × β) → String → List (String × β)
  | [], _ => []
  | (k1, v1) :: rest, k => if k1 = k then rest else (k1, v1) :: popA rest k

/-- Outer-`defaultdict` indexing `registry[topic]`: returns the inner map,
inserting a fresh empty inner map first when the topic is absent. -/
def getOrInsertEmpty (r : Reg) (t : String) : Inner × Reg :=
  match lookupA r t with
  | some inner => (inner, r)
  | none => ([], r ++ [(t, [])])

/-- The scheduler state touched by the registry operations: the two
topic registries plus the channel-allocation counter standing for
`_make_channel`'s ability to mint fresh channels. -/
structure SchedState where
  receivers : Reg
  senders : Reg
  nextChan : Nat
deriving DecidableEq, Repr

/-- Inner-`defaultdict` indexing `inner[node_id]` whose default factory is
`self._make_channel`: returns the node's channel, minting a fresh one (and
advancing the allocation counter) when the node id is absent. -/
def getOrMakeChan (inner : Inner) (nid : NodeId) (fresh : Nat) :
    ChanId × Inner × Nat :=
  match lookupA inner nid with
  | some c => (c, inner, fresh)
  | none => (fresh, inner ++ [(nid, fresh)], fresh + 1)

/-- The double indexing `registry[topic][node_id]` on one registry: outer
defaultdict indexing (inserting an empty inner map when absent), then
inner defaultdict indexing (minting a fresh channel when absent), writing
the possibly-extended inner map back under the topic.  Returns the
channel, the updated registry and the advanced allocation counter. -/
def dd_index (r : Reg) (t : String) (nid : NodeId) (fresh : Nat) :
    ChanId × Reg × Nat :=
  let ri := getOrInsertEmpty r t
  let rc := getOrMakeChan ri.1 nid fresh
  (rc.1, setA ri.2 t rc.2.1, rc.2.2)

/-- The combination `registry[topic].pop(node_id, None)` on one registry:
outer defaultdict indexing (with its insertion side effect) followed by an
in-place `pop` with default on the inner dict — never an error. -/
def dd_pop (r : Reg) (t : String) (nid : NodeId) : Reg :=
  let ri := getOrInsertEmpty r t
  setA ri.2 t (popA ri.1 nid)

/-- Python `_get_channels_from_topics(self, topics, node_id)`:
unpacks `receive_topic, send_topic = topics` and resolves
`self._topic_node_id_receivers[receive_topic][node_id]` and
`self._topic_node_id_senders[send_topic][node_id]`, each double indexing
carrying the defaultdict insertion side effects. -/
def get_channels_from_topics (s : SchedState) (topics : Topics)
    (nid : NodeId) : (ChanId × ChanId) × SchedState :=
  let r := dd_index s.receivers topics.receiving nid s.nextChan
  let t := dd_index s.senders topics.sending nid r.2.2
  ((r.1, t.1), ⟨r.2.1, t.2.1, t.2.2⟩)

/-- Python `deschedule_node(self, topics, node_id)`:
`self._topic_node_id_receivers[topics.receiving].pop(node_id, None)` and
`self._topic_node_id_senders[topics.sending].pop(node_id, None)`. -/
def deschedule_node (s : SchedState) (topics : Topics) (nid : NodeId) :
    SchedState :=
  { s with receivers := dd_pop s.receivers topics.receiving nid,
           senders := dd_pop s.senders topics.sending nid }

/-- Lookup of a single node's channel under a topic (reading both levels
of a registry, with no side effect): used to state absence of a
`(topic, node id)` entry. -/
def lookupNode (r : Reg) (t : String) (nid : NodeId) : Option ChanId :=
  match lookupA r t with
  | none => none
  | some inner => lookupA inner nid

/-- Number of entries carrying key `k` in an association list (a Python
dict always has zero or one). -/
def keyCount {β : Type} (l : List (String × β)) (k : String) : Nat :=
  l.countP (fun q => q.1 == k)

/-! ### schedulers.py: ingress fan-out -/

/-- Per-channel buffered contents of every channel, indexed by channel id
(`goless.chan(-1)` is an unbounded buffered channel, so `send` appends). -/
abbrev Buffers := ChanId → List Msg

/-- `channel.send(message)` on the channel with id `c`. -/
def sendToChannel (bufs : Buffers) (c : ChanId) (m : Msg) : Buffers :=
  fun c2 => if c2 = c then bufs c2 ++ [m] else bufs c2

/-- Python `_receive_incoming_message(self, topic, message)`:
`for channel in self._topic_node_id_receivers[topic].itervalues():
channel.send(message)` — the outer indexing inserts an empty inner map
when the topic is absent, then the message is sent to every channel
registered under the topic. -/
def receive_incoming_message (recv : Reg) (topic : String) (m : Msg)
    (bufs : Buffers) : Reg × Buffers :=
  let ri := getOrInsertEmpty recv topic
  (ri.2, ri.1.foldl (fun b p => sendToChannel b p.2 m) bufs)

/-- Python `_listen_for_incoming_messages(self, topics_messages)`:
`for topic, message in topics_messages:
self._receive_incoming_message(topic, message)`. -/
def listen_for_incoming_messages (recv : Reg) (bufs : Buffers)
    (tms : List (String × Msg)) : Reg × Buffers :=
  tms.foldl (fun st p => receive_incoming_message st.1 p.1 p.2 st.2)
    (recv, bufs)

/-- The topics the ingress pump iterates:
`_get_incoming_message_stream` loops `for topic in
self._topic_node_id_receivers.iterkeys()`. -/
def ingressTopics (s : SchedState) : List String :=
  s.receivers.map Prod.fst

/-- The topics the egress pump iterates:
`_get_outgoing_message_stream` loops over
`self._topic_node_id_senders.iteritems()`. -/
def egressTopics (s : SchedState) : List String :=
  s.senders.map Prod.fst

/-! ### schedulers.py: start and stop as event traces -/

/-- The two pump tasks that `start` hands to `goless.go`. -/
inductive Task where
  | ingressPump
  | egressPump
deriving DecidableEq, Repr

/-- Observable steps of the `start` method. -/
inductive Ev where
  | setRunning (b : Bool)
  | spawn (t : Task)
  | recvStop
deriving DecidableEq, Repr

/-- Python `start(self)` in order:
`self._scheduler_should_run = True`;
`self._goless.go(self._listen_for_incoming_messages, ...)`;
`self._goless.go(self._listen_for_outgoing_messages, ...)`;
`self._stop_channel.recv()`;
`self._scheduler_should_run = False`; return. -/
def startTrace : List Ev :=
  [Ev.setRunning true, Ev.spawn Task.ingressPump, Ev.spawn Task.egressPump,
    Ev.recvStop, Ev.setRunning false]

/-- The value of `_scheduler_should_run` after a sequence of events. -/
def runFlagAfter (evs : List Ev) (init : Bool) : Bool :=
  evs.foldl (fun b e => match e with | Ev.setRunning v => v | _ => b) init

/-- Whether an event launches a task via `goless.go`. -/
def isSpawn : Ev → Bool
  | Ev.spawn _ => true
  | _ => false

/-- Observable steps of the `stop` method: a `STOP` sent to a registered
receiving channel, or the `None` sent on the stop channel. -/
inductive SEv where
  | sendSTOP (c : ChanId)
  | signalStop
deriving DecidableEq, Repr

/-- Python `stop(self)`:
`for topic in self._topic_node_id_receivers.itervalues():
for channel in topic.itervalues(): channel.send(nodes.STOP)`;
then `self._stop_channel.send(None)`. -/
def stopTrace (recv : Reg) : List SEv :=
  (recv.foldl (fun acc tp => acc ++ tp.2.map (fun p => SEv.sendSTOP p.2)) [])
    ++ [SEv.signalStop]

/-- Number of registrations of channel `c` across the whole receiving
registry (all topics, all node ids). -/
def chanOccurs (recv : Reg) (c : ChanId) : Nat :=
  recv.foldl (fun n tp => n + (tp.2.map Prod.snd).count c) 0

/-! ### schedulers.py: the run-node exit call

`_run_node` ends with the statement `self.deschedule_node(self, topics,
node_id)`.  `deschedule_node` is a bound method with two parameters after
`self`; we model the Python call with an explicit positional-argument
list, so that the arity check Python performs is visible. -/

/-- A positional argument of the `_run_node` exit call. -/
inductive PyArg where
  | schedulerRef
  | topicsArg (t : Topics)
  | nodeIdArg (n : NodeId)

/-- Outcome of a Python method call: a result state, or a TypeError. -/
inductive CallOutcome where
  | ok (s : SchedState)
  | typeError
deriving DecidableEq

/-- Calling the bound method `deschedule_node` with a positional argument
list: it accepts exactly a topics pair and a node id; any other argument
list is a TypeError (Python checks the arity before running the body, so
the registries are untouched on mismatch). -/
def call_deschedule_node (s : SchedState) : List PyArg → CallOutcome
  | [PyArg.topicsArg t, PyArg.nodeIdArg n] => CallOutcome.ok (deschedule_node s t n)
  | _ => CallOutcome.typeError

/-- The final statement of `_run_node`:
`self.deschedule_node(self, topics, node_id)` — the scheduler itself is
passed as an extra first positional argument. -/
def run_node_exit (s : SchedState) (t : Topics) (nid : NodeId) : CallOutcome :=
  call_deschedule_node s [PyArg.schedulerRef, PyArg.topicsArg t, PyArg.nodeIdArg nid]

/-! ## Association-list lemmas -/

theorem lookupA_setA_self {β : Type} (l : List (String × β)) (k : String)
    (v : β) : lookupA (setA l k v) k = some v := by
  induction l with
  | nil => simp [setA, lookupA]
  | cons hd tl ih =>
    obtain ⟨k1, v1⟩ := hd
    by_cases h : k1 = k
    · simp [setA, h, lookupA]
    · simp [setA, h, lookupA, ih]

theorem setA_self {β : Type} {l : List (String × β)} {k : String} {v : β}
    (h : lookupA l k = some v) : setA l k v = l := by
  induction l with
  | nil => simp [lookupA] at h
  | cons hd tl ih =>
    obtain ⟨k1, v1⟩ := hd
    by_cases hk : k1 = k
    · subst hk
      simp [lookupA] at h
      simp [setA, h]
    · simp [lookupA, hk] at h
      simp [setA, hk, ih h]

theorem lookupA_setA_ne {β : Type} (l : List (String × β)) {k u : String}
    (v : β) (h : u ≠ k) : lookupA (setA l k v) u = lookupA l u := by
  induction l with
  | nil => simp [setA, lookupA, Ne.symm h]
  | cons hd tl ih =>
    obtain ⟨k1, v1⟩ := hd
    by_cases hk : k1 = k
    · subst hk
      simp [setA, lookupA, Ne.symm h]
    · simp [setA, hk, lookupA, ih]

theorem lookupA_append_of_some {β : Type} {l : List (String × β)}
    {k : String} {v : β} (l2 : List (String × β))
    (h : lookupA l k = some v) : lookupA (l ++ l2) k = some v := by
  induction l with
  | nil => simp [lookupA] at h
  | cons hd tl ih =>
    obtain ⟨k1, v1⟩ := hd
    by_cases hk : k1 = k
    · simp [lookupA, hk] at h ⊢
      exact h
    · simp [lookupA, hk] at h ⊢
      exact ih h

theorem lookupA_append_of_none {β : Type} {l : List (String × β)}
    {k : String} (l2 : List (String × β)) (h : lookupA l k = none) :
    lookupA (l ++ l2) k = lookupA l2 k := by
  induction l with
  | nil => simp
  | cons hd tl ih =>
    obtain ⟨k1, v1⟩ := hd
    by_cases hk : k1 = k
    · simp [lookupA, hk] at h
    · simp [lookupA, hk] at h ⊢
      exact ih h

theorem lookupA_mem {β : Type} {l : List (String × β)} {k : String} {v : β}
    (h : lookupA l k = some v) : (k, v) ∈ l := by
  induction l with
  | nil => simp [lookupA] at h
  | cons hd tl ih =>
    obtain ⟨k1, v1⟩ := hd
    by_cases hk : k1 = k
    · subst hk
      simp [lookupA] at h
      simp [h]
    · simp [lookupA, hk] at h
      exact List.mem_cons_of_mem _ (ih h)

theorem mem_keys_of_lookupA {β : Type} {l : List (String × β)} {k : String}
    {v : β} (h : lookupA l k = some v) : k ∈ l.map Prod.fst :=
  List.mem_map.2 ⟨(k, v), lookupA_mem h, rfl⟩

theorem not_mem_keys_of_lookupA_none {β : Type} {l : List (String × β)}
    {k : String} (h : lookupA l k = none) : k ∉ l.map Prod.fst := by
  induction l with
  | nil => simp
  | cons hd tl ih =>
    obtain ⟨k1, v1⟩ := hd
    by_cases hk : k1 = k
    · simp [lookupA, hk] at h
    · simp [lookupA, hk] at h
      simp [ih h, Ne.symm hk]

theorem keys_setA {β : Type} {l : List (String × β)} {k : String} {w : β}
    (v : β) (h : lookupA l k = some w) :
    (setA l k v).map Prod.fst = l.map Prod.fst := by
  induction l with
  | nil => simp [lookupA] at h
  | cons hd tl ih =>
    obtain ⟨k1, v1⟩ := hd
    by_cases hk : k1 = k
    · subst hk
      simp [setA]
    · simp [lookupA, hk] at h
      simp [setA, hk, ih h]

theorem popA_of_lookupA_none {β : Type} {l : List (String × β)} {k : String}
    (h : lookupA l k = none) : popA l k = l := by
  induction l with
  | nil => rfl
  | cons hd tl ih =>
    obtain ⟨k1, v1⟩ := hd
    by_cases hk : k1 = k
    · simp [lookupA, hk] at h
    · simp [lookupA, hk] at h
      simp [popA, hk, ih h]

theorem keyCount_cons {β : Type} (k1 : String) (v1 : β)
    (tl : List (String × β)) (k : String) :
    keyCount ((k1, v1) :: tl) k
      = keyCount tl k + (if k1 = k then 1 else 0) := by
  simp [keyCount, List.countP_cons]

theorem lookupA_of_keyCount_zero {β : Type} {l : List (String × β)}
    {k : String} (h : keyCount l k = 0) : lookupA l k = none := by
  induction l with
  | nil => rfl
  | cons hd tl ih =>
    obtain ⟨k1, v1⟩ := hd
    rw [keyCount_cons] at h
    by_cases hk : k1 = k
    · rw [if_pos hk] at h
      omega
    · rw [if_neg hk] at h
      simp [lookupA, hk, ih (by omega)]

theorem lookupA_popA_self {β : Type} {l : List (String × β)} {k : String}
    (h : keyCount l k ≤ 1) : lookupA (popA l k) k = none := by
  induction l with
  | nil => rfl
  | cons hd tl ih =>
    obtain ⟨k1, v1⟩ := hd
    rw [keyCount_cons] at h
    by_cases hk : k1 = k
    · rw [if_pos hk] at h
      simp [popA, hk]
      exact lookupA_of_keyCount_zero (by omega)
    · rw [if_neg hk] at h
      simp [popA, hk, lookupA, ih (by omega)]

theorem lookupA_popA_ne {β : Type} {l : List (String × β)} {k u : String}
    (h : u ≠ k) : lookupA (popA l k) u = lookupA l u := by
  induction l with
  | nil => rfl
  | cons hd tl ih =>
    obtain ⟨k1, v1⟩ := hd
    by_cases hk : k1 = k
    · subst hk
      simp [popA, lookupA, Ne.symm h]
    · simp [popA, hk, lookupA, ih]

/-! ## Registry-operation lemmas -/

theorem dd_pop_lookup_self (r : Reg) (t : String) (nid : NodeId) :
    lookupA (dd_pop r t nid) t = some (popA ((lookupA r t).getD []) nid) := by
  rcases h : lookupA r t with _ | inner
  · simp [dd_pop, getOrInsertEmpty, h, lookupA_setA_self]
  · simp [dd_pop, getOrInsertEmpty, h, lookupA_setA_self]

theorem dd_pop_lookup_ne (r : Reg) {t u : String} (nid : NodeId)
    (h : u ≠ t) : lookupA (dd_pop r t nid) u = lookupA r u := by
  rcases hl : lookupA r t with _ | inner
  · simp only [dd_pop, getOrInsertEmpty, hl]
    rw [lookupA_setA_ne _ _ h]
    rcases hu : lookupA r u with _ | w
    · rw [lookupA_append_of_none _ hu]
      simp [lookupA, Ne.symm h]
    · rw [lookupA_append_of_some _ hu]
  · simp only [dd_pop, getOrInsertEmpty, hl]
    rw [lookupA_setA_ne _ _ h]

theorem dd_pop_of_lookup_some {r : Reg} {t : String} {inner : Inner}
    (nid : NodeId) (h : lookupA r t = some inner) :
    dd_pop r t nid = setA r t (popA inner nid) := by
  simp [dd_pop, getOrInsertEmpty, h]

theorem dd_pop_idem (r : Reg) (t : String) (nid : NodeId)
    (h : keyCount ((lookupA r t).getD []) nid ≤ 1) :
    dd_pop (dd_pop r t nid) t nid = dd_pop r t nid := by
  have h1 : lookupA (dd_pop r t nid) t
      = some (popA ((lookupA r t).getD []) nid) := dd_pop_lookup_self r t nid
  have h2 : lookupA (popA ((lookupA r t).getD []) nid) nid = none :=
    lookupA_popA_self h
  rw [dd_pop_of_lookup_some nid h1, popA_of_lookupA_none h2]
  exact setA_self h1

theorem dd_index_some_some {r : Reg} {t : String} {inner : Inner}
    {nid : NodeId} {c : ChanId} (fresh : Nat) (h : lookupA r t = some inner)
    (hc : lookupA inner nid = some c) :
    dd_index r t nid fresh = (c, setA r t inner, fresh) := by
  simp [dd_index, getOrInsertEmpty, getOrMakeChan, h, hc]

theorem dd_index_some_none {r : Reg} {t : String} {inner : Inner}
    {nid : NodeId} (fresh : Nat) (h : lookupA r t = some inner)
    (hc : lookupA inner nid = none) :
    dd_index r t nid fresh
      = (fresh, setA r t (inner ++ [(nid, fresh)]), fresh + 1) := by
  simp [dd_index, getOrInsertEmpty, getOrMakeChan, h, hc]

theorem dd_index_none {r : Reg} {t : String} {nid : NodeId} (fresh : Nat)
    (h : lookupA r t = none) :
    dd_index r t nid fresh
      = (fresh, setA (r ++ [(t, [])]) t [(nid, fresh)], fresh + 1) := by
  simp [dd_index, getOrInsertEmpty, getOrMakeChan, h, lookupA]

theorem dd_index_idem (r : Reg) (t : String) (nid : NodeId)
    (fresh fresh2 : Nat) :
    dd_index (dd_index r t nid fresh).2.1 t nid fresh2
      = ((dd_index r t nid fresh).1, (dd_index r t nid fresh).2.1, fresh2) := by
  rcases h : lookupA r t with _ | inner
  · rw [dd_index_none fresh h]
    have h1 : lookupA (setA (r ++ [(t, ([] : Inner))]) t [(nid, fresh)]) t
        = some [(nid, fresh)] := lookupA_setA_self _ _ _
    have h2 : lookupA [(nid, fresh)] nid = some fresh := by simp [lookupA]
    rw [dd_index_some_some fresh2 h1 h2, setA_self h1]
  · rcases hc : lookupA inner nid with _ | c
    · rw [dd_index_some_none fresh h hc]
      have h1 : lookupA (setA r t (inner ++ [(nid, fresh)])) t
          = some (inner ++ [(nid, fresh)]) := lookupA_setA_self _ _ _
      have h2 : lookupA (inner ++ [(nid, fresh)]) nid = some fresh := by
        rw [lookupA_append_of_none _ hc]
        simp [lookupA]
      rw [dd_index_some_some fresh2 h1 h2, setA_self h1]
    · rw [dd_index_some_some fresh h hc]
      have h1 : lookupA (setA r t inner) t = some inner :=
        lookupA_setA_self _ _ _
      rw [dd_index_some_some fresh2 h1 hc, setA_self h1]

theorem keys_dd_index_of_none {r : Reg} {t : String} (nid : NodeId)
    (fresh : Nat) (h : lookupA r t = none) :
    (dd_index r t nid fresh).2.1.map Prod.fst = r.map Prod.fst ++ [t] := by
  have hl : lookupA (r ++ [(t, ([] : Inner))]) t = some [] := by
    rw [lookupA_append_of_none _ h]
    simp [lookupA]
  rw [dd_index_none fresh h]
  simp only [keys_setA _ hl]
  simp

/-! ## Fan-out and stop-trace lemmas -/

theorem foldl_sendToChannel (l : Inner) (m : Msg) (bufs : Buffers)
    (c : ChanId) :
    (l.foldl (fun b p => sendToChannel b p.2 m) bufs) c
      = bufs c ++ List.replicate ((l.map Prod.snd).count c) m := by
  induction l generalizing bufs with
  | nil => simp
  | cons hd tl ih =>
    simp only [List.foldl_cons, ih, List.map_cons, List.count_cons]
    by_cases h : c = hd.2
    · simp [sendToChannel, h, List.replicate_succ]
    · have : ¬ (hd.2 = c) := fun hh => h hh.symm
      simp [sendToChannel, h, this]

theorem foldl_count_add (recv : Reg) (n : Nat) (c : ChanId) :
    recv.foldl (fun k tp => k + (tp.2.map Prod.snd).count c) n
      = n + recv.foldl (fun k tp => k + (tp.2.map Prod.snd).count c) 0 := by
  induction recv generalizing n with
  | nil => simp
  | cons hd tl ih =>
    rw [List.foldl_cons, List.foldl_cons, ih, ih ((0 : Nat) + (hd.2.map Prod.snd).count c)]
    omega

theorem chanOccurs_foldl (recv : Reg) (n : Nat) (c : ChanId) :
    recv.foldl (fun k tp => k + (tp.2.map Prod.snd).count c) n
      = n + chanOccurs recv c := by
  rw [foldl_count_add]
  rfl

theorem chanOccurs_cons (hd : String × Inner) (tl : Reg) (c : ChanId) :
    chanOccurs (hd :: tl) c = (hd.2.map Prod.snd).count c + chanOccurs tl c := by
  have h : chanOccurs (hd :: tl) c
      = tl.foldl (fun k tp => k + (tp.2.map Prod.snd).count c)
          ((0 : Nat) + (hd.2.map Prod.snd).count c) := rfl
  rw [h, chanOccurs_foldl]
  omega

theorem count_sendSTOP_map (l : Inner) (c : ChanId) :
    (l.map (fun p => SEv.sendSTOP p.2)).count (SEv.sendSTOP c)
      = (l.map Prod.snd).count c := by
  induction l with
  | nil => rfl
  | cons hd tl ih =>
    simp only [List.map_cons, List.count_cons, ih]
    by_cases h : hd.2 = c
    · simp [h]
    · simp [h]

theorem stopTrace_foldl_count (recv : Reg) (init : List SEv) (c : ChanId) :
    (recv.foldl (fun acc tp => acc ++ tp.2.map (fun p => SEv.sendSTOP p.2))
        init).count (SEv.sendSTOP c)
      = init.count (SEv.sendSTOP c) + chanOccurs recv c := by
  induction recv generalizing init with
  | nil => simp [chanOccurs]
  | cons hd tl ih =>
    simp only [List.foldl_cons, ih]
    rw [List.count_append, count_sendSTOP_map, chanOccurs_cons]
    omega

theorem stopTrace_foldl_no_signal (recv : Reg) (init : List SEv) :
    (recv.foldl (fun acc tp => acc ++ tp.2.map (fun p => SEv.sendSTOP p.2))
        init).count SEv.signalStop = init.count SEv.signalStop := by
  induction recv generalizing init with
  | nil => rfl
  | cons hd tl ih =>
    simp only [List.foldl_cons, ih, List.count_append]
    have : (hd.2.map (fun p => SEv.sendSTOP p.2)).count SEv.signalStop = 0 := by
      rw [List.count_eq_zero]
      intro hmem
      rcases List.mem_map.1 hmem with ⟨p, _, hp⟩
      exact SEv.noConfusion hp
    omega

/-! ## Theorems -/

/-- Claim C2: a node's first activation yields exactly its `Topics` value
and invokes the step function zero times (the outcome is independent of
the step function); every later activation in the running state with a
message that is not the `STOP` sentinel yields `step(message)`; in
particular, for `step = x -> x + 2` and input `5` the node yields `7`. -/
theorem node_first_yields_topics_then_step (t : Topics) (f g : Msg → Msg)
    (m : Msg) (hm : m ≠ Msg.STOP) :
    node_first ⟨t, f⟩ = (ActResult.yieldTopics t, NodeState.running)
    ∧ node_first ⟨t, f⟩ = node_first ⟨t, g⟩
    ∧ node_send ⟨t, f⟩ NodeState.running m
        = (ActResult.yieldMsg (f m), NodeState.running)
    ∧ node_send ⟨t, add2⟩ NodeState.running (Msg.val 5)
        = (ActResult.yieldMsg (Msg.val 7), NodeState.running) := by
  refine ⟨rfl, rfl, ?_, ?_⟩
  · simp [node_send, hm]
  · simp [node_send, add2]

/-- Witness for C2 at the concrete input of the spec's scenario. -/
theorem node_first_yields_topics_then_step_witness :
    node_first ⟨⟨"integers", "sums"⟩, add2⟩
        = (ActResult.yieldTopics ⟨"integers", "sums"⟩, NodeState.running)
    ∧ node_send ⟨⟨"integers", "sums"⟩, add2⟩ NodeState.running (Msg.val 5)
        = (ActResult.yieldMsg (Msg.val 7), NodeState.running) :=
  ⟨(node_first_yields_topics_then_step ⟨"integers", "sums"⟩ add2 add2
      (Msg.val 5) (by decide)).1,
    (node_first_yields_topics_then_step ⟨"integers", "sums"⟩ add2 add2
      (Msg.val 5) (by decide)).2.2.2⟩

/-- Claim C3: after the first activation, supplying the `STOP` sentinel
terminates the node without invoking the step function (the outcome is
independent of the step function and the resulting state is terminal),
and every activation attempted after termination is an error. -/
theorem node_stop_terminates_and_post_stop_errors (t : Topics)
    (f g : Msg → Msg) (m : Msg) :
    node_send ⟨t, f⟩ NodeState.running Msg.STOP
        = (ActResult.terminated, NodeState.stopped)
    ∧ node_send ⟨t, f⟩ NodeState.running Msg.STOP
        = node_send ⟨t, g⟩ NodeState.running Msg.STOP
    ∧ node_send ⟨t, f⟩ NodeState.stopped m
        = (ActResult.error, NodeState.stopped) := by
  refine ⟨?_, ?_, rfl⟩ <;> simp [node_send]

/-- Claim C7: `start` launches exactly two pump tasks (one ingress, one
egress) and nothing else, the running flag is set to true before the
block on the stop channel and is never cleared before the stop signal,
there is exactly one blocking receive on the stop channel, and after the
stop signal the flag is false and the trace ends (start returns). -/
theorem start_launches_two_pumps_and_toggles_flag :
    startTrace.filter isSpawn = [Ev.spawn Task.ingressPump, Ev.spawn Task.egressPump]
    ∧ startTrace.count Ev.recvStop = 1
    ∧ runFlagAfter (startTrace.takeWhile (fun e => e ≠ Ev.recvStop)) false = true
    ∧ (startTrace.takeWhile (fun e => e ≠ Ev.recvStop)).all
        (fun e => e ≠ Ev.setRunning false)
    ∧ runFlagAfter startTrace false = false
    ∧ startTrace.getLast? = some (Ev.setRunning false) := by
  decide

/-- Claim C5: channel resolution is idempotent: calling
`_get_channels_from_topics` a second time with the same topics pair and
node id returns the very same receiving and sending channels and leaves
the scheduler state (registries and allocation counter) unchanged, so
each channel is created only on first use. -/
theorem get_channels_idempotent (s : SchedState) (t : Topics)
    (nid : NodeId) :
    get_channels_from_topics (get_channels_from_topics s t nid).2 t nid
      = get_channels_from_topics s t nid := by
  simp only [get_channels_from_topics]
  rw [dd_index_idem, dd_index_idem]

/-- Helper for C6: after `registry[topic].pop(node_id, None)` the
node id is absent under the topic (Python dicts have unique keys, hence
the key-count bound). -/
theorem lookupNode_dd_pop (r : Reg) (t : String) (nid : NodeId)
    (h : keyCount ((lookupA r t).getD []) nid ≤ 1) :
    lookupNode (dd_pop r t nid) t nid = none := by
  simp only [lookupNode, dd_pop_lookup_self]
  exact lookupA_popA_self h

/-- Claim C6: `deschedule_node` removes the node's entry from the
receiving map under `topics.receiving` and from the sending map under
`topics.sending`, and repeating it for the same arguments is a benign
no-op (the second call leaves the state exactly as the first left it;
the underlying `pop(node_id, None)` never errors, which the embedding
reflects by being a total function). -/
theorem deschedule_removes_both_and_idempotent (s : SchedState)
    (t : Topics) (nid : NodeId)
    (hr : keyCount ((lookupA s.receivers t.receiving).getD []) nid ≤ 1)
    (hs : keyCount ((lookupA s.senders t.sending).getD []) nid ≤ 1) :
    lookupNode (deschedule_node s t nid).receivers t.receiving nid = none
    ∧ lookupNode (deschedule_node s t nid).senders t.sending nid = none
    ∧ deschedule_node (deschedule_node s t nid) t nid
        = deschedule_node s t nid := by
  refine ⟨lookupNode_dd_pop _ _ _ hr, lookupNode_dd_pop _ _ _ hs, ?_⟩
  simp only [deschedule_node]
  rw [dd_pop_idem _ _ _ hr, dd_pop_idem _ _ _ hs]

/-- Witness for C6 at a concrete registered node. -/
theorem deschedule_removes_both_and_idempotent_witness :
    lookupNode (deschedule_node
        ⟨[("integers", [("foo", 0)])], [("sums", [("foo", 1)])], 2⟩
        ⟨"integers", "sums"⟩ "foo").receivers "integers" "foo" = none
    ∧ deschedule_node (deschedule_node
          ⟨[("integers", [("foo", 0)])], [("sums", [("foo", 1)])], 2⟩
          ⟨"integers", "sums"⟩ "foo") ⟨"integers", "sums"⟩ "foo"
        = deschedule_node
            ⟨[("integers", [("foo", 0)])], [("sums", [("foo", 1)])], 2⟩
            ⟨"integers", "sums"⟩ "foo" :=
  ⟨(deschedule_removes_both_and_idempotent
      ⟨[("integers", [("foo", 0)])], [("sums", [("foo", 1)])], 2⟩
      ⟨"integers", "sums"⟩ "foo" (by decide) (by decide)).1,
    (deschedule_removes_both_and_idempotent
      ⟨[("integers", [("foo", 0)])], [("sums", [("foo", 1)])], 2⟩
      ⟨"integers", "sums"⟩ "foo" (by decide) (by decide)).2.2⟩

/-- Claim C10: touching an absent topic through `deschedule_node` (or
through channel resolution) inserts the topic into the registry maps as a
defaultdict side effect — after a deschedule of an unregistered topic the
topic is present with an empty inner map, so the topic lists the ingress
and egress pumps iterate grow even though no node is registered under the
topic; entries of other topics are unchanged, and channel resolution also
appends the fresh topic to the pump's topic list. -/
theorem deschedule_inserts_default_topic (s : SchedState) (t : Topics)
    (nid : NodeId)
    (hr : lookupA s.receivers t.receiving = none)
    (hs : lookupA s.senders t.sending = none) :
    lookupA (deschedule_node s t nid).receivers t.receiving = some []
    ∧ lookupA (deschedule_node s t nid).senders t.sending = some []
    ∧ t.receiving ∈ ingressTopics (deschedule_node s t nid)
    ∧ t.receiving ∉ ingressTopics s
    ∧ t.sending ∈ egressTopics (deschedule_node s t nid)
    ∧ t.sending ∉ egressTopics s
    ∧ (∀ u, u ≠ t.receiving →
        lookupA (deschedule_node s t nid).receivers u = lookupA s.receivers u)
    ∧ (∀ u, u ≠ t.sending →
        lookupA (deschedule_node s t nid).senders u = lookupA s.senders u)
    ∧ ingressTopics (get_channels_from_topics s t nid).2
        = ingressTopics s ++ [t.receiving] := by
  have hr2 : lookupA (deschedule_node s t nid).receivers t.receiving
      = some [] := by
    have := dd_pop_lookup_self s.receivers t.receiving nid
    rw [hr] at this
    simpa [popA] using this
  have hs2 : lookupA (deschedule_node s t nid).senders t.sending
      = some [] := by
    have := dd_pop_lookup_self s.senders t.sending nid
    rw [hs] at this
    simpa [popA] using this
  refine ⟨hr2, hs2, mem_keys_of_lookupA hr2,
    not_mem_keys_of_lookupA_none hr, mem_keys_of_lookupA hs2,
    not_mem_keys_of_lookupA_none hs, ?_, ?_, ?_⟩
  · intro u hu
    exact dd_pop_lookup_ne s.receivers nid hu
  · intro u hu
    exact dd_pop_lookup_ne s.senders nid hu
  · show (dd_index s.receivers t.receiving nid s.nextChan).2.1.map Prod.fst
      = s.receivers.map Prod.fst ++ [t.receiving]
    exact keys_dd_index_of_none nid s.nextChan hr

/-- Witness for C10 starting from empty registries. -/
theorem deschedule_inserts_default_topic_witness :
    lookupA (deschedule_node ⟨[], [], 0⟩ ⟨"integers", "sums"⟩
        "foo").receivers "integers" = some []
    ∧ ingressTopics (get_channels_from_topics ⟨[], [], 0⟩
        ⟨"integers", "sums"⟩ "foo").2 = [] ++ ["integers"] :=
  ⟨(deschedule_inserts_default_topic ⟨[], [], 0⟩ ⟨"integers", "sums"⟩
      "foo" rfl rfl).1,
    (deschedule_inserts_default_topic ⟨[], [], 0⟩ ⟨"integers", "sums"⟩
      "foo" rfl rfl).2.2.2.2.2.2.2.2⟩

/-- Claim C4: delivering one incoming bus message `(topic, m)` through
`_receive_incoming_message` sends `m` to every node channel registered in
the receiving map under that topic (each registered channel — Python
dict values are per-node, hence the count-one premise — gets `m`
appended to its buffer). -/
theorem broadcast_delivers_to_every_listener (recv : Reg) (topic : String)
    (m : Msg) (bufs : Buffers) (c : ChanId) (inner : Inner)
    (h1 : lookupA recv topic = some inner)
    (h2 : (inner.map Prod.snd).count c = 1) :
    (receive_incoming_message recv topic m bufs).2 c = bufs c ++ [m] := by
  simp only [receive_incoming_message, getOrInsertEmpty, h1]
  rw [foldl_sendToChannel, h2]
  simp

/-- Witness for C4: two nodes both registered under receive-topic R both
receive the same message. -/
theorem broadcast_delivers_to_every_listener_witness :
    (receive_incoming_message [("R", [("a", 0), ("b", 1)])] "R"
        (Msg.val 3) (fun _ => [])).2 0 = [Msg.val 3]
    ∧ (receive_incoming_message [("R", [("a", 0), ("b", 1)])] "R"
        (Msg.val 3) (fun _ => [])).2 1 = [Msg.val 3] :=
  ⟨(broadcast_delivers_to_every_listener [("R", [("a", 0), ("b", 1)])]
      "R" (Msg.val 3) (fun _ => []) 0 [("a", 0), ("b", 1)] rfl
      (by decide)).trans (by decide),
    (broadcast_delivers_to_every_listener [("R", [("a", 0), ("b", 1)])]
      "R" (Msg.val 3) (fun _ => []) 1 [("a", 0), ("b", 1)] rfl
      (by decide)).trans (by decide)⟩

/-- Claim C8: `stop` sends the STOP sentinel exactly once to every
receiving channel registered in the receiving registry (across all
topics; channels are per-node, hence the occurs-once premise), and the
signal on the stop channel is the single final event of the trace, after
all the STOP sends. -/
theorem stop_sends_stop_once_then_signals (recv : Reg) (c : ChanId)
    (h : chanOccurs recv c = 1) :
    (stopTrace recv).count (SEv.sendSTOP c) = 1
    ∧ (stopTrace recv).getLast? = some SEv.signalStop
    ∧ (stopTrace recv).count SEv.signalStop = 1 := by
  refine ⟨?_, ?_, ?_⟩
  · rw [stopTrace, List.count_append, stopTrace_foldl_count, h]
    simp
  · rw [stopTrace]
    simp
  · rw [stopTrace, List.count_append, stopTrace_foldl_no_signal]
    simp

/-- Witness for C8 with one registered channel. -/
theorem stop_sends_stop_once_then_signals_witness :
    (stopTrace [("integers", [("foo", 0)])]).count (SEv.sendSTOP 0) = 1
    ∧ (stopTrace [("integers", [("foo", 0)])]).getLast?
        = some SEv.signalStop :=
  ⟨(stop_sends_stop_once_then_signals [("integers", [("foo", 0)])] 0
      (by decide)).1,
    (stop_sends_stop_once_then_signals [("integers", [("foo", 0)])] 0
      (by decide)).2.1⟩

/-- Claim C9: over any finite sequence of `(topic, message)` pairs fed to
the ingress fan-out, a channel registered (exactly once, and only) under
topic `T` ends with exactly the subsequence of messages addressed to `T`
appended to its buffer, in the order the pump observed them. -/
theorem ingress_per_topic_order (recv : Reg) (bufs : Buffers)
    (tms : List (String × Msg)) (T : String) (c : ChanId) (innerT : Inner)
    (h1 : lookupA recv T = some innerT)
    (h2 : (innerT.map Prod.snd).count c = 1)
    (h3 : ∀ e ∈ recv, e.1 ≠ T → (e.2.map Prod.snd).count c = 0) :
    (listen_for_incoming_messages recv bufs tms).2 c
      = bufs c ++ (tms.filter (fun p => p.1 == T)).map Prod.snd := by
  induction tms generalizing recv bufs innerT with
  | nil => simp [listen_for_incoming_messages]
  | cons hd tl ih =>
    obtain ⟨U, mm⟩ := hd
    have step : listen_for_incoming_messages recv bufs ((U, mm) :: tl)
        = listen_for_incoming_messages
            (receive_incoming_message recv U mm bufs).1
            (receive_incoming_message recv U mm bufs).2 tl := rfl
    by_cases hUT : U = T
    · subst hUT
      have hrecv : (receive_incoming_message recv U mm bufs).1 = recv := by
        simp [receive_incoming_message, getOrInsertEmpty, h1]
      have hbufs : (receive_incoming_message recv U mm bufs).2 c
          = bufs c ++ [mm] := by
        simp only [receive_incoming_message, getOrInsertEmpty, h1]
        rw [foldl_sendToChannel, h2]
        simp
      rw [step, hrecv,
        ih recv (receive_incoming_message recv U mm bufs).2 innerT h1 h2 h3,
        hbufs]
      simp [List.filter_cons]
    · rcases hu : lookupA recv U with _ | innerU
      · have hrecv : (receive_incoming_message recv U mm bufs).1
            = recv ++ [(U, [])] := by
          simp [receive_incoming_message, getOrInsertEmpty, hu]
        have hbufs : (receive_incoming_message recv U mm bufs).2 = bufs := by
          simp [receive_incoming_message, getOrInsertEmpty, hu]
        have h1b : lookupA (recv ++ [(U, ([] : Inner))]) T = some innerT :=
          lookupA_append_of_some _ h1
        have h3b : ∀ e ∈ recv ++ [(U, ([] : Inner))], e.1 ≠ T →
            (e.2.map Prod.snd).count c = 0 := by
          intro e he hne
          rcases List.mem_append.1 he with he2 | he2
          · exact h3 e he2 hne
          · simp only [List.mem_singleton] at he2
            subst he2
            simp
        rw [step, hrecv, hbufs, ih _ bufs innerT h1b h2 h3b]
        simp [List.filter_cons, hUT]
      · have hrecv : (receive_incoming_message recv U mm bufs).1 = recv := by
          simp [receive_incoming_message, getOrInsertEmpty, hu]
        have hc0 : (innerU.map Prod.snd).count c = 0 :=
          h3 (U, innerU) (lookupA_mem hu) hUT
        have hbufs : (receive_incoming_message recv U mm bufs).2 c
            = bufs c := by
          simp only [receive_incoming_message, getOrInsertEmpty, hu]
          rw [foldl_sendToChannel, hc0]
          simp
        rw [step, hrecv,
          ih recv (receive_incoming_message recv U mm bufs).2 innerT h1 h2 h3,
          hbufs]
        simp [List.filter_cons, hUT]

/-- Witness for C9: the listener under topic R receives exactly the
R-messages, in arrival order. -/
theorem ingress_per_topic_order_witness :
    (listen_for_incoming_messages [("R", [("a", 0)]), ("S", [("b", 1)])]
        (fun _ => []) [("R", Msg.val 1), ("S", Msg.val 2), ("R", Msg.val 3)]).2 0
      = [Msg.val 1, Msg.val 3] :=
  (ingress_per_topic_order [("R", [("a", 0)]), ("S", [("b", 1)])]
      (fun _ => []) [("R", Msg.val 1), ("S", Msg.val 2), ("R", Msg.val 3)]
      "R" 0 [("a", 0)] rfl (by decide) (by decide)).trans (by decide)

/-- Claim C1 (code bug): the exit statement of `_run_node` passes the
scheduler itself as an extra positional argument to the two-parameter
bound method `deschedule_node`, so the call raises TypeError for every
state, topics pair and node id, and never produces a descheduled state:
the node's registry entries are not removed on loop exit. -/
theorem run_node_exit_raises_typeError (s : SchedState) (t : Topics)
    (nid : NodeId) :
    run_node_exit s t nid = CallOutcome.typeError
    ∧ ∀ s2 : SchedState, run_node_exit s t nid ≠ CallOutcome.ok s2 := by
  refine ⟨rfl, ?_⟩
  intro s2 h
  simp [run_node_exit, call_deschedule_node] at h

end Nonobvious
